import Mathlib

/-!
Shallow embedding of the trade-journal engine (`src/app_logic.py`) and proofs
about its round-trip reconstruction, statistics, live-trade planning and risk
recalculation logic.  Python floats are modelled as exact rationals; the Python
`round` builtin (half-even rounding) is modelled by `roundHalfEven`/`roundTo`.
-/

namespace TradeJournal

/-- Half-even rounding of a rational to an integer, the tie-breaking rule of
the Python builtin `round`. -/
def roundHalfEven (q : ℚ) : ℤ :=
  let f := ⌊q⌋
  let r := q - (f : ℚ)
  if r < 1/2 then f
  else if (1 : ℚ)/2 < r then f + 1
  else if f % 2 = 0 then f else f + 1

/-- Python `round(x, n)` on our rational model of floats. -/
def roundTo (n : ℕ) (q : ℚ) : ℚ := (roundHalfEven (q * 10 ^ n) : ℚ) / 10 ^ n

/-- One broker fill, as produced by `parse_uploaded_file` and consumed by
`reconstruct_trades` (`side`, `qty`, `price`, `time`, `date`). -/
structure Fill where
  side  : String
  qty   : Int
  price : ℚ
  time  : String
  date  : String
deriving Repr, DecidableEq, Inhabited

/-- Signed quantity of a fill: `+qty` for side `"Buy"`, `-qty` otherwise,
exactly the update applied to `position` in `_build_round_trips`. -/
def signedQty (f : Fill) : Int := if f.side = "Buy" then f.qty else -f.qty

/-- Sum of signed fill quantities of a group. -/
def signedSum (fills : List Fill) : Int := (fills.map signedQty).sum

/-- Total buy-side quantity accumulated by the loop in `_compute_stats`. -/
def buyQty (fills : List Fill) : Int :=
  ((fills.filter (fun f => f.side == "Buy")).map Fill.qty).sum

/-- Total buy-side notional accumulated by the loop in `_compute_stats`. -/
def buyVal (fills : List Fill) : ℚ :=
  ((fills.filter (fun f => f.side == "Buy")).map (fun f => (f.qty : ℚ) * f.price)).sum

/-- Total sell-side quantity: the `else` branch of the loop in `_compute_stats`,
i.e. every fill whose side is not `"Buy"`. -/
def sellQty (fills : List Fill) : Int :=
  ((fills.filter (fun f => ¬ f.side == "Buy")).map Fill.qty).sum

/-- Total sell-side notional (the `else` branch of the loop in `_compute_stats`). -/
def sellVal (fills : List Fill) : ℚ :=
  ((fills.filter (fun f => ¬ f.side == "Buy")).map (fun f => (f.qty : ℚ) * f.price)).sum

/-- The record returned by `_compute_stats`.  The Python key `open` is a Lean
keyword and is embedded as `openFlag`. -/
structure TradeStats where
  trade_num  : Nat
  direction  : String
  qty        : Int
  avg_entry  : ℚ
  avg_exit   : ℚ
  pnl        : ℚ
  entry_time : String
  exit_time  : String
  fills      : List Fill
  openFlag   : Bool
deriving Repr, DecidableEq, Inhabited

/-- `_compute_stats`: direction, quantity, volume-weighted entry/exit averages
and P&L of one group of fills (called only on nonempty groups; `headI` models
`fills[0]`, `getLastD` models `fills[-1]`). -/
def computeStats (fills : List Fill) (trade_num : Nat) : TradeStats :=
  let bq := buyQty fills
  let bv := buyVal fills
  let sq := sellQty fills
  let sv := sellVal fills
  let is_short := (fills.headI).side = "Sell"
  let qty := max bq sq
  let avg_entry : ℚ :=
    if is_short ∧ sq ≠ 0 then sv / (sq : ℚ) else if bq ≠ 0 then bv / (bq : ℚ) else 0
  let avg_exit : ℚ :=
    if is_short ∧ bq ≠ 0 then bv / (bq : ℚ) else if sq ≠ 0 then sv / (sq : ℚ) else 0
  let isOpen := (is_short ∧ bq = 0) ∨ (¬ is_short ∧ sq = 0)
  let pnl : ℚ :=
    if isOpen then 0
    else (if is_short then avg_entry - avg_exit else avg_exit - avg_entry) * (qty : ℚ) * 5
  { trade_num := trade_num
    direction := if is_short then "Short" else "Long"
    qty := qty
    avg_entry := roundTo 4 avg_entry
    avg_exit := roundTo 4 avg_exit
    pnl := roundTo 2 pnl
    entry_time := (fills.headI).time
    exit_time := (fills.getLastD default).time
    fills := fills
    openFlag := decide isOpen }

/-- Loop of `_build_round_trips`: walk the fills keeping the running signed
`position`, the `current` group and the closed `trades`; close the group each
time the position returns to zero, and flush a trailing nonempty group. -/
def buildRoundTripsGo : List Fill → Int → List Fill → List TradeStats → List TradeStats
  | [], _, current, trades =>
      if current.isEmpty then trades else trades ++ [computeStats current (trades.length + 1)]
  | f :: rest, pos, current, trades =>
      let pos' := pos + signedQty f
      let current' := current ++ [f]
      if pos' = 0 then
        buildRoundTripsGo rest 0 [] (trades ++ [computeStats current' (trades.length + 1)])
      else
        buildRoundTripsGo rest pos' current' trades

/-- `_build_round_trips`. -/
def buildRoundTrips (fills : List Fill) : List TradeStats := buildRoundTripsGo fills 0 [] []

/-- Lexicographic comparison of character lists by code point, the order
Python uses to compare the `time` and `date` strings. -/
def listCharLEb : List Char → List Char → Bool
  | [], _ => true
  | _ :: _, [] => false
  | a :: as, b :: bs => if a < b then true else if b < a then false else listCharLEb as bs

/-- Python string `<=`, by code points. -/
def strLEb (s t : String) : Bool := listCharLEb s.toList t.toList

/-- Ordering of fills by time string, the sort key of `reconstruct_trades`. -/
def timeLE (f g : Fill) : Prop := strLEb f.time g.time = true

instance : DecidableRel timeLE := fun f g =>
  inferInstanceAs (Decidable (strLEb f.time g.time = true))

/-- The Python call `sorted(day_fills, key=lambda x: x["time"])` is a stable ascending
sort by the time string; it is embedded as the (stable) insertion sort by
`timeLE`, which computes the same list. -/
def sortFillsByTime (fills : List Fill) : List Fill := fills.insertionSort timeLE

/-- One step of grouping fills by date: append the fill to the bucket of its date,
creating the bucket at the end on first occurrence (Python dict
`setdefault` + `append`, insertion-ordered keys). -/
def addToGroup (acc : List (String × List Fill)) (f : Fill) : List (String × List Fill) :=
  if acc.any (fun p => p.1 == f.date) then
    acc.map (fun p => if p.1 = f.date then (p.1, p.2 ++ [f]) else p)
  else acc ++ [(f.date, [f])]

/-- The `by_date` dictionary of `reconstruct_trades`, as an insertion-ordered
association list. -/
def groupByDate (fills : List Fill) : List (String × List Fill) := fills.foldl addToGroup []

/-- One entry of the list returned by `reconstruct_trades`. -/
structure DayTrades where
  date   : String
  trades : List TradeStats
deriving Repr, DecidableEq, Inhabited

/-- Ordering of date buckets: the Python call `sorted(by_date.items())` compares the
(distinct) date keys first. -/
def dateLE (p q : String × List Fill) : Prop := strLEb p.1 q.1 = true

instance : DecidableRel dateLE := fun p q =>
  inferInstanceAs (Decidable (strLEb p.1 q.1 = true))

/-- `reconstruct_trades`: group fills by date, sort the dates, and build each
round trips of each day from its time-sorted fills. -/
def reconstructTrades (fills : List Fill) : List DayTrades :=
  ((groupByDate fills).insertionSort dateLE).map
    (fun p => ⟨p.1, buildRoundTrips (sortFillsByTime p.2)⟩)

/-! ### Live-trade configuration, plan generator and risk recalculator -/

/-- Per-instrument tick values.  `ticks_per_point` is stored as a rational
although the source coerces it with `int(...)`; no claim depends on it. -/
structure InstConfig where
  dollars_per_point : ℚ
  dollars_per_tick  : ℚ
  ticks_per_point   : ℚ
deriving Repr, DecidableEq, Inhabited

/-- The hardcoded `INSTRUMENT_CONFIG["MES"]` entry. -/
def instMES : InstConfig := ⟨5, 5/4, 4⟩

/-- The hardcoded `INSTRUMENT_CONFIG["ES"]` entry. -/
def instES : InstConfig := ⟨50, 25/2, 4⟩

/-- `db.get_all_config()`: the app-wide key-value configuration, modelled as an
association list whose values are already numeric (the source stores strings
in SQLite and coerces them with `float`/`int` at each lookup). -/
def DbConfig := List (String × ℚ)

/-- `config.get(key, default)`. -/
def cfgGet (cfg : DbConfig) (key : String) (dflt : ℚ) : ℚ :=
  ((cfg.find? (fun p => p.1 == key)).map Prod.snd).getD dflt

/-- `get_instrument_config()`: the hardcoded instrument table with per-field
database overrides, keyed by instrument name. -/
def getInstrumentConfig (cfg : DbConfig) : List (String × InstConfig) :=
  [("MES", ⟨cfgGet cfg "inst_MES_dpp" 5, cfgGet cfg "inst_MES_dpt" (5/4),
            cfgGet cfg "inst_MES_tpp" 4⟩),
   ("ES", ⟨cfgGet cfg "inst_ES_dpp" 50, cfgGet cfg "inst_ES_dpt" (25/2),
           cfgGet cfg "inst_ES_tpp" 4⟩)]

/-- The idiom `get_instrument_config().get(instrument, INSTRUMENT_CONFIG["MES"])`
shared by the plan generator, the execution-P&L computation and the risk
recalculator: an unknown instrument falls back to the hardcoded MES entry. -/
def resolveInstrument (cfg : DbConfig) (instrument : String) : InstConfig :=
  (((getInstrumentConfig cfg).find? (fun p => p.1 == instrument)).map Prod.snd).getD instMES

/-- `get_trade_defaults()`: default stop/TP point distances with database
overrides (source values are strings, coerced with `float` at use). -/
structure TradeDefaults where
  full_stop_points    : ℚ
  full_tp_points      : ℚ
  partial_stop_points : ℚ
  partial_tp1_points  : ℚ
  partial_tp2_points  : ℚ
  partial_tp3_points  : ℚ
deriving Repr, DecidableEq, Inhabited

def getTradeDefaults (cfg : DbConfig) : TradeDefaults :=
  ⟨cfgGet cfg "td_full_stop_points" 20, cfgGet cfg "td_full_tp_points" 20,
   cfgGet cfg "td_partial_stop_points" 20, cfgGet cfg "td_partial_tp1_points" 5,
   cfgGet cfg "td_partial_tp2_points" 10, cfgGet cfg "td_partial_tp3_points" 20⟩

/-- One stop/take-profit level produced by `compute_live_trade_plan`. -/
structure Level where
  level_type     : String
  portion        : Int
  qty            : Int
  price          : ℚ
  risk_dollars   : ℚ
  reward_dollars : ℚ
deriving Repr, DecidableEq, Inhabited

/-- Body of `compute_live_trade_plan` after the instrument lookup and the
trade-defaults lookup.  Any mode other than `"full"` takes the partials
branch, dividing the quantity into three portions with Python floor
division/modulo. -/
def computeLiveTradePlanWithInst (inst : InstConfig) (d : TradeDefaults)
    (direction : String) (entry_price : ℚ) (total_qty : Int) (mode : String) : List Level :=
  let dpp := inst.dollars_per_point
  let is_long := direction = "Long"
  if mode = "full" then
    let stop_dist := d.full_stop_points
    let tp_dist := d.full_tp_points
    let stop_price := if is_long then entry_price - stop_dist else entry_price + stop_dist
    let tp_price := if is_long then entry_price + tp_dist else entry_price - tp_dist
    let risk := |entry_price - stop_price| * (total_qty : ℚ) * dpp
    let reward := |tp_price - entry_price| * (total_qty : ℚ) * dpp
    [⟨"stop", 1, total_qty, roundTo 2 stop_price, roundTo 2 risk, 0⟩,
     ⟨"tp", 1, total_qty, roundTo 2 tp_price, 0, roundTo 2 reward⟩]
  else
    let stop_dist := d.partial_stop_points
    let tp_dists : List ℚ := [d.partial_tp1_points, d.partial_tp2_points, d.partial_tp3_points]
    let base_qty := Int.fdiv total_qty 3
    let remainder := Int.fmod total_qty 3
    let qtys : List Int :=
      [base_qty + if 0 < remainder then 1 else 0,
       base_qty + if 1 < remainder then 1 else 0,
       base_qty + if 2 < remainder then 1 else 0]
    ((List.range 3).map (fun i =>
      let qi := qtys.getD i 0
      let stop_price := if is_long then entry_price - stop_dist else entry_price + stop_dist
      let risk := |entry_price - stop_price| * (qi : ℚ) * dpp
      let tp_price := if is_long then entry_price + tp_dists.getD i 0
                      else entry_price - tp_dists.getD i 0
      let reward := |tp_price - entry_price| * (qi : ℚ) * dpp
      [⟨"stop", (i : Int) + 1, qi, roundTo 2 stop_price, roundTo 2 risk, 0⟩,
       ⟨"tp", (i : Int) + 1, qi, roundTo 2 tp_price, 0, roundTo 2 reward⟩])).flatten

/-- `compute_live_trade_plan`: resolve the instrument (falling back to the
hardcoded MES entry) and the trade defaults, then build the levels. -/
def computeLiveTradePlan (cfg : DbConfig) (direction instrument : String)
    (entry_price : ℚ) (total_qty : Int) (mode : String) : List Level :=
  computeLiveTradePlanWithInst (resolveInstrument cfg instrument) (getTradeDefaults cfg)
    direction entry_price total_qty mode

/-- Body of `compute_execution_pnl` after the instrument lookup. -/
def computeExecutionPnlWithInst (inst : InstConfig) (direction : String)
    (entry_price exec_price : ℚ) (qty : Int) : ℚ :=
  let dpp := inst.dollars_per_point
  if direction = "Long" then roundTo 2 ((exec_price - entry_price) * (qty : ℚ) * dpp)
  else roundTo 2 ((entry_price - exec_price) * (qty : ℚ) * dpp)

/-- `compute_execution_pnl`: P&L of one execution against the entry price. -/
def computeExecutionPnl (cfg : DbConfig) (direction instrument : String)
    (entry_price exec_price : ℚ) (qty : Int) : ℚ :=
  computeExecutionPnlWithInst (resolveInstrument cfg instrument) direction
    entry_price exec_price qty

/-- One logged execution against a live trade. -/
structure Execution where
  portion   : Int
  qty       : Int
  price     : ℚ
  pnl       : ℚ
  exec_time : String
deriving Repr, DecidableEq, Inhabited

/-- A live trade together with its levels and executions, the input of
`recalculate_live_trade`. -/
structure LiveTrade where
  total_qty   : Int
  entry_price : ℚ
  direction   : String
  instrument  : String
  mode        : String
  levels      : List Level
  executions  : List Execution
deriving Repr, DecidableEq, Inhabited

/-- `sum(e["qty"] for e in executions)`. -/
def exitedQty (lt : LiveTrade) : Int := (lt.executions.map Execution.qty).sum

/-- `sum(e["pnl"] for e in executions)`. -/
def realizedPnl (lt : LiveTrade) : ℚ := (lt.executions.map Execution.pnl).sum

/-- `total_qty - exited_qty` as computed inside the recalculator. -/
def remainingQty (lt : LiveTrade) : Int := lt.total_qty - exitedQty lt

/-- Quantity already exited from one portion
(`portion_exited` lookup in the partials branch). -/
def portionExited (execs : List Execution) (p : Int) : Int :=
  ((execs.filter (fun e => e.portion == p)).map Execution.qty).sum

/-- The `portion_levels[(level_type, portion)]` dictionary lookup; a later
duplicate level overwrites an earlier one, hence the reversed search. -/
def portionLevel (levels : List Level) (t : String) (p : Int) : Option Level :=
  levels.reverse.find? (fun lv => lv.level_type == t && lv.portion == p)

/-- One entry of `portion_details`. -/
structure PortionDetail where
  portion    : Int
  qty        : Int
  stop_price : ℚ
  tp_price   : Option ℚ
  stop_pnl   : ℚ
  tp_pnl     : ℚ
deriving Repr, DecidableEq, Inhabited

/-- The snapshot returned by `recalculate_live_trade`.  The Python function
returns a dict; the early return for a fully-closed trade has no
`net_stop_exposure` key, modelled here by an `Option` that is `none` exactly
when the key is absent. -/
structure RiskSnapshot where
  remaining_qty     : Int
  exited_qty        : Int
  realized_pnl      : ℚ
  current_risk      : ℚ
  potential_reward  : ℚ
  initial_risk      : ℚ
  net_stop_exposure : Option ℚ
  active_portions   : List PortionDetail
  portion_details   : List PortionDetail
  is_closed         : Bool
deriving Repr, DecidableEq, Inhabited

/-- Body of the `for p in [1, 2, 3]` loop of the partials branch, threading
`(total_stop_risk, total_reward, portion_details)`. -/
def partialsStep (entry : ℚ) (dpp : ℚ) (is_long : Bool) (levels : List Level)
    (execs : List Execution) (st : ℚ × ℚ × List PortionDetail) (p : Int) :
    ℚ × ℚ × List PortionDetail :=
  match portionLevel levels "stop" p with
  | none => st
  | some stop_lv =>
    let rem := stop_lv.qty - portionExited execs p
    if rem ≤ 0 then st
    else
      let stop_pnl := if is_long then (stop_lv.price - entry) * (rem : ℚ) * dpp
                      else (entry - stop_lv.price) * (rem : ℚ) * dpp
      let tpl := portionLevel levels "tp" p
      let tp_pnl : ℚ :=
        match tpl with
        | some tp_lv => if is_long then (tp_lv.price - entry) * (rem : ℚ) * dpp
                        else (entry - tp_lv.price) * (rem : ℚ) * dpp
        | none => 0
      let reward_add : ℚ := match tpl with | some _ => max tp_pnl 0 | none => 0
      (st.1 + stop_pnl, st.2.1 + reward_add,
       st.2.2 ++ [⟨p, rem, stop_lv.price, tpl.map Level.price,
                   roundTo 2 stop_pnl, roundTo 2 tp_pnl⟩])

/-- The `initial_risk` loop of `recalculate_live_trade`: the sum over stop
levels of the entry-to-stop distance times quantity times dollars-per-point. -/
def initialRiskWith (dpp entry : ℚ) (levels : List Level) : ℚ :=
  ((levels.filter (fun lv => lv.level_type == "stop")).map
    (fun lv => |entry - lv.price| * (lv.qty : ℚ) * dpp)).sum

/-- Body of `recalculate_live_trade` after the instrument lookup: remaining
quantity, realized P&L, current risk, potential reward and per-portion
breakdown of a live trade. -/
def recalculateLiveTradeWithInst (inst : InstConfig) (lt : LiveTrade) : RiskSnapshot :=
  let dpp := inst.dollars_per_point
  let is_long := lt.direction = "Long"
  let exited_qty := exitedQty lt
  let realized_pnl := realizedPnl lt
  let remaining_qty := lt.total_qty - exited_qty
  let initial_risk : ℚ := initialRiskWith dpp lt.entry_price lt.levels
  if remaining_qty ≤ 0 then
    { remaining_qty := 0, exited_qty := exited_qty
      realized_pnl := roundTo 2 realized_pnl
      current_risk := 0, potential_reward := 0
      initial_risk := roundTo 2 initial_risk
      net_stop_exposure := none
      active_portions := [], portion_details := [], is_closed := true }
  else if lt.mode = "partials" then
    let st := [(1 : Int), 2, 3].foldl
      (partialsStep lt.entry_price dpp is_long lt.levels lt.executions) (0, 0, [])
    let total_stop_risk := st.1
    let total_reward := st.2.1
    let portion_details := st.2.2
    let worst_case_pnl := total_stop_risk + realized_pnl
    let current_risk := if worst_case_pnl < 0 then |worst_case_pnl| else 0
    { remaining_qty := remaining_qty, exited_qty := exited_qty
      realized_pnl := roundTo 2 realized_pnl
      current_risk := roundTo 2 current_risk
      potential_reward := roundTo 2 total_reward
      initial_risk := roundTo 2 initial_risk
      net_stop_exposure := some (roundTo 2 worst_case_pnl)
      active_portions := portion_details.filter (fun p => 0 < p.qty)
      portion_details := portion_details
      is_closed := decide (remaining_qty ≤ 0) }
  else
    let stop_lv := lt.levels.find? (fun lv => lv.level_type == "stop")
    let tp_lv := lt.levels.find? (fun lv => lv.level_type == "tp")
    let riskExposure : ℚ × ℚ :=
      match stop_lv with
      | some s =>
        let stop_pnl := if is_long then (s.price - lt.entry_price) * (remaining_qty : ℚ) * dpp
                        else (lt.entry_price - s.price) * (remaining_qty : ℚ) * dpp
        let worst_case := stop_pnl + realized_pnl
        (if worst_case < 0 then |worst_case| else 0, roundTo 2 worst_case)
      | none => (0, 0)
    let total_reward : ℚ :=
      match tp_lv with
      | some t =>
        let tp_pnl := if is_long then (t.price - lt.entry_price) * (remaining_qty : ℚ) * dpp
                      else (lt.entry_price - t.price) * (remaining_qty : ℚ) * dpp
        max tp_pnl 0
      | none => 0
    { remaining_qty := remaining_qty, exited_qty := exited_qty
      realized_pnl := roundTo 2 realized_pnl
      current_risk := roundTo 2 riskExposure.1
      potential_reward := roundTo 2 total_reward
      initial_risk := roundTo 2 initial_risk
      net_stop_exposure := some riskExposure.2
      active_portions := [], portion_details := []
      is_closed := decide (remaining_qty ≤ 0) }

/-- `recalculate_live_trade`: resolve the instrument of the trade (falling
back to the hardcoded MES entry for unknown names), then compute the
snapshot. -/
def recalculateLiveTrade (cfg : DbConfig) (lt : LiveTrade) : RiskSnapshot :=
  recalculateLiveTradeWithInst (resolveInstrument cfg lt.instrument) lt

/-! ### File parsing (`parse_uploaded_file` and its helpers)

The byte-level decodings done by the standard library (`bytes.decode`,
`csv.DictReader` tokenisation, `openpyxl` workbook loading) are taken as
given: an `UploadFile` carries the CSV decoding of the bytes (which never
fails, since decoding uses `errors="replace"`) and, when the bytes form a
readable workbook, the cell rows of the active sheet.  Exceptions are
modelled by `Except` with the `PyErr` constructors below. -/

/-- The Python exceptions that `parse_uploaded_file` and its helpers can
raise.  `loadError` stands for the exception `openpyxl.load_workbook` raises
on unreadable bytes; `stopIteration` for `next()` on an empty sheet. -/
inductive PyErr where
  | valueError (msg : String)
  | keyError
  | typeError
  | overflowError
  | indexError
  | stopIteration
  | loadError
deriving Repr, DecidableEq

/-- A Python float value: finite (kept exact as a rational), an infinity, or
NaN.  Modelling notes: underscore digit separators and the overflow of
out-of-range finite literals to infinity are not modelled; no claim below
evaluates such inputs. -/
inductive PyFloat where
  | fin (q : ℚ)
  | inf
  | ninf
  | nan
deriving Repr, DecidableEq, Inhabited

/-- Value of a nonempty digit string. -/
def digitsToNat (cs : List Char) : ℕ := cs.foldl (fun a c => a * 10 + (c.toNat - 48)) 0

/-- Split a character list at every character satisfying `p`, keeping empty
pieces (the behaviour of `str.split(sep)` for a one-character separator). -/
def splitListP (p : Char → Bool) : List Char → List (List Char)
  | [] => [[]]
  | c :: rest =>
      let r := splitListP p rest
      if p c then [] :: r else (c :: r.headI) :: r.tail

/-- `s.split(sep)` for a one-character separator. -/
def splitString (sep : Char) (s : String) : List String :=
  (splitListP (fun c => c == sep) s.toList).map (fun cs => ⟨cs⟩)

/-- `s.split()`: split on whitespace runs, discarding empty tokens. -/
def wsTokens (s : String) : List String :=
  ((splitListP Char.isWhitespace s.toList).filter (fun cs => !cs.isEmpty)).map
    (fun cs => (⟨cs⟩ : String))

/-- `s.strip()`. -/
def pyStrip (s : String) : String :=
  ⟨((s.toList.dropWhile Char.isWhitespace).reverse.dropWhile Char.isWhitespace).reverse⟩

/-- `s.lower()`. -/
def lowerString (s : String) : String := ⟨s.toList.map Char.toLower⟩

/-- A run of `minLen` to `maxLen` digits whose value lies in `[lo, hi]`, the
shape of one `strptime` field regex together with the range check done by the
`datetime` constructor. -/
def numField (minLen maxLen lo hi : ℕ) (s : String) : Option ℕ :=
  if minLen ≤ s.length ∧ s.length ≤ maxLen ∧ s.toList.all (fun c => c.isDigit) then
    let v := digitsToNat s.toList
    if lo ≤ v ∧ v ≤ hi then some v else none
  else none

/-- Mantissa of a Python float literal: digits with an optional decimal
point, at least one digit overall. -/
def parseUnsignedRat (s : String) : Option ℚ :=
  match splitString '.' s with
  | [ip] =>
      if ip.length ≠ 0 ∧ ip.toList.all (fun c => c.isDigit) then
        some ((digitsToNat ip.toList : ℚ))
      else none
  | [ip, fp] =>
      if (ip.toList.all fun c => c.isDigit) ∧ (fp.toList.all fun c => c.isDigit) ∧
          (ip.length ≠ 0 ∨ fp.length ≠ 0) then
        some ((digitsToNat ip.toList : ℚ) + (digitsToNat fp.toList : ℚ) / (10 ^ fp.length : ℚ))
      else none
  | _ => none

/-- Optionally signed nonempty digit exponent. -/
def parseExpInt (s : String) : Option ℤ :=
  let signed : ℤ × List Char :=
    match s.toList with
    | '-' :: body => (-1, body)
    | '+' :: body => (1, body)
    | body => (1, body)
  if signed.2 ≠ [] ∧ signed.2.all (fun c => c.isDigit) then
    some (signed.1 * (digitsToNat signed.2 : ℤ))
  else none

/-- Unsigned part of `float(str)`: the words inf/infinity/nan
(case-insensitive) or a decimal literal with optional exponent. -/
def parsePyFloatPos (s : String) : Option PyFloat :=
  let ls := lowerString s
  if ls == "inf" ∨ ls == "infinity" then some .inf
  else if ls == "nan" then some .nan
  else
    match splitString 'e' ls with
    | [m] => (parseUnsignedRat m).map PyFloat.fin
    | [m, e] =>
        match parseUnsignedRat m, parseExpInt e with
        | some q, some z => some (.fin (q * (10 : ℚ) ^ z))
        | _, _ => none
    | _ => none

def pyNegFloat : PyFloat → PyFloat
  | .fin q => .fin (-q)
  | .inf => .ninf
  | .ninf => .inf
  | .nan => .nan

/-- The Python builtin `float` applied to a string: strip whitespace, strip
an optional sign, then parse; `none` models the `ValueError` it raises. -/
def parsePyFloat (s : String) : Option PyFloat :=
  match (pyStrip s).toList with
  | '-' :: rest => (parsePyFloatPos ⟨rest⟩).map pyNegFloat
  | '+' :: rest => parsePyFloatPos ⟨rest⟩
  | rest => parsePyFloatPos ⟨rest⟩

/-- The Python builtin `int` applied to a float: truncation toward zero;
`OverflowError` on an infinity, `ValueError` on NaN. -/
def pyIntOfFloat : PyFloat → Except PyErr Int
  | .fin q => .ok (q.num / (q.den : ℤ))
  | .inf => .error .overflowError
  | .ninf => .error .overflowError
  | .nan => .error (.valueError "cannot convert float NaN to integer")

/-- Zero-pad to two digits (`strftime` `%H`/`%M`/`%S`/`%m`/`%d`). -/
def pad2 (n : ℕ) : String := if n < 10 then "0" ++ toString n else toString n

/-- Zero-pad to four digits (`strftime` `%Y`). -/
def pad4 (n : ℕ) : String :=
  if n < 10 then "000" ++ toString n
  else if n < 100 then "00" ++ toString n
  else if n < 1000 then "0" ++ toString n
  else toString n

/-- Gregorian month lengths, as validated by the `datetime` constructor. -/
def daysInMonth (y m : ℕ) : ℕ :=
  if m = 2 then (if (y % 4 = 0 ∧ y % 100 ≠ 0) ∨ y % 400 = 0 then 29 else 28)
  else if m = 4 ∨ m = 6 ∨ m = 9 ∨ m = 11 then 30 else 31

/-- `strptime` with format `%m/%d/%Y`, including the `datetime` range
validation; returns `(year, month, day)`. -/
def parseMDY (s : String) : Option (ℕ × ℕ × ℕ) :=
  match splitString '/' s with
  | [ms, ds, ys] =>
      match numField 1 2 1 12 ms, numField 1 2 1 31 ds, numField 4 4 1 9999 ys with
      | some m, some d, some y => if d ≤ daysInMonth y m then some (y, m, d) else none
      | _, _, _ => none
  | _ => none

/-- `strptime` with format `%Y-%m-%d`. -/
def parseYMD (s : String) : Option (ℕ × ℕ × ℕ) :=
  match splitString '-' s with
  | [ys, ms, ds] =>
      match numField 4 4 1 9999 ys, numField 1 2 1 12 ms, numField 1 2 1 31 ds with
      | some y, some m, some d => if d ≤ daysInMonth y m then some (y, m, d) else none
      | _, _, _ => none
  | _ => none

/-- `strptime` with format `%m/%d/%y` (two-digit years 00-68 map to 20xx,
69-99 to 19xx). -/
def parseMDy2 (s : String) : Option (ℕ × ℕ × ℕ) :=
  match splitString '/' s with
  | [ms, ds, ys] =>
      match numField 1 2 1 12 ms, numField 1 2 1 31 ds, numField 2 2 0 99 ys with
      | some m, some d, some y2 =>
          let y := if y2 ≤ 68 then 2000 + y2 else 1900 + y2
          if d ≤ daysInMonth y m then some (y, m, d) else none
      | _, _, _ => none
  | _ => none

/-- `strptime` time fields `%H:%M:%S` (1-2 digit fields; hours 0-23,
minutes/seconds 0-59 after the `datetime` range check). -/
def parseTimeTriple (s : String) : Option (ℕ × ℕ × ℕ) :=
  match splitString ':' s with
  | [hs, ms, ss] =>
      match numField 1 2 0 23 hs, numField 1 2 0 59 ms, numField 1 2 0 59 ss with
      | some h, some m, some sec => some (h, m, sec)
      | _, _, _ => none
  | _ => none

/-- A full `<date> <time>` format: one literal space between a date part
matching `dateParse` and an `%H:%M:%S` time part; yields the time triple. -/
def parseDateTimeFmt (dateParse : String → Option (ℕ × ℕ × ℕ)) (s : String) :
    Option (ℕ × ℕ × ℕ) :=
  match splitString ' ' s with
  | [dpart, tpart] =>
      match dateParse dpart, parseTimeTriple tpart with
      | some _, some t => some t
      | _, _ => none
  | _ => none

/-- `_parse_fill_time`: try the three datetime formats and reformat the time
as `%H:%M:%S`; on total failure fall back to the second whitespace token, or
the stripped raw string when there is none. -/
def parseFillTime (raw0 : String) : String :=
  let raw := pyStrip raw0
  let t? := (parseDateTimeFmt parseMDY raw).orElse
    (fun _ => (parseDateTimeFmt parseYMD raw).orElse
      (fun _ => parseDateTimeFmt parseMDy2 raw))
  match t? with
  | some (h, m, s) => pad2 h ++ ":" ++ pad2 m ++ ":" ++ pad2 s
  | none =>
      let parts := wsTokens raw
      if 2 ≤ parts.length then parts.getD 1 "" else raw

/-- `_parse_date`: take the first whitespace token of the stripped input
(`raw.strip().split()[0]` raises `IndexError` when the input is blank), try
the three date formats, and fall back to the raw token.  -/
def parseDateStr (raw0 : String) : Except PyErr String :=
  let toks := wsTokens (pyStrip raw0)
  match toks with
  | [] => .error .indexError
  | raw :: _ =>
      match (parseMDY raw).orElse (fun _ => (parseYMD raw).orElse (fun _ => parseMDy2 raw)) with
      | some (y, m, d) => .ok (pad4 y ++ "-" ++ pad2 m ++ "-" ++ pad2 d)
      | none => .ok raw

/-- One row dictionary: keys in insertion order; a value of `none` models the
Python value `None`. -/
abbrev Row := List (String × Option String)

/-- `r.get(k)`: `none` when the key is absent, `some v` when present. -/
def rowGetOpt (r : Row) (k : String) : Option (Option String) :=
  (r.reverse.find? (fun p => p.1 == k)).map Prod.snd

/-- Truthiness of `r.get(k)`: present, not `None` and not the empty string. -/
def truthyStr : Option (Option String) → Bool
  | some (some s) => !(s == "")
  | _ => false

/-- The Python builtin `str` on a cell value (`str(None) = "None"`). -/
def pyStr : Option String → String
  | none => "None"
  | some s => s

/-- `r[k]`: raises `KeyError` when the key is absent. -/
def rowIndex (r : Row) (k : String) : Except PyErr (Option String) :=
  match rowGetOpt r k with
  | some v => .ok v
  | none => .error .keyError

/-- The fill record built by `parse_uploaded_file`; the price is a Python
float and may be non-finite (e.g. `avgPrice` `"inf"` is kept, not skipped). -/
structure ParsedFill where
  side  : String
  qty   : Int
  price : PyFloat
  time  : String
  date  : String
deriving Repr, DecidableEq, Inhabited

/-- The `try` body of the row loop in `parse_uploaded_file`, with the dict
fields evaluated in source order (side, qty, price, time, date); the first
exception raised propagates. -/
def rowToFill (r : Row) : Except PyErr ParsedFill :=
  match rowIndex r "B/S" with
  | .error e => .error e
  | .ok side0 =>
    match rowIndex r "filledQty" with
    | .error e => .error e
    | .ok qty0 =>
      match parsePyFloat (pyStr qty0) with
      | none => .error (.valueError "could not convert string to float")
      | some qtyF =>
        match pyIntOfFloat qtyF with
        | .error e => .error e
        | .ok qty =>
          match rowIndex r "avgPrice" with
          | .error e => .error e
          | .ok price0 =>
            match (match price0 with
                   | none => Except.error PyErr.typeError
                   | some s =>
                     match parsePyFloat s with
                     | some f => Except.ok f
                     | none => Except.error (PyErr.valueError
                         "could not convert string to float")) with
            | .error e => .error e
            | .ok price =>
              match rowIndex r "Fill Time" with
              | .error e => .error e
              | .ok time0 =>
                match rowIndex r "Date" with
                | .error e => .error e
                | .ok date0 =>
                  match parseDateStr (pyStr date0) with
                  | .error e => .error e
                  | .ok date =>
                    .ok { side := pyStrip (pyStr side0), qty := qty, price := price
                          time := parseFillTime (pyStr time0), date := date }

/-- One iteration of the row loop: skip rows with falsy `Fill Time` or `B/S`;
run the `try` body; `except (ValueError, KeyError, TypeError)` skips the row;
any other exception propagates. -/
def processRow (r : Row) : Except PyErr (Option ParsedFill) :=
  if !truthyStr (rowGetOpt r "Fill Time") || !truthyStr (rowGetOpt r "B/S") then Except.ok none
  else
    match rowToFill r with
    | .ok f => .ok (some f)
    | .error (.valueError _) => .ok none
    | .error .keyError => .ok none
    | .error .typeError => .ok none
    | .error e => .error e

/-- The whole row loop: collect the fills of the surviving rows, stopping at
the first propagating exception. -/
def processRows : List Row → Except PyErr (List ParsedFill)
  | [] => .ok []
  | r :: rest => do
      let f? ← processRow r
      let fs ← processRows rest
      match f? with
      | some f => pure (f :: fs)
      | none => pure fs

/-- A `csv.DictReader` row: zip with the header, missing trailing values
filled with `None` (`restval`); extra values (collected under the `None`
restkey) cannot collide with a string column name and are dropped. -/
def csvDict (header : List String) (cells : List String) : Row :=
  header.zip (cells.map some ++ List.replicate (header.length - cells.length) none)

/-- Header cell of the Excel branch:
`str(c.value).strip() if c.value else ""`. -/
def xlsxHeaderName : Option String → String
  | none => ""
  | some s => if s == "" then "" else pyStrip s

/-- An Excel data row: `dict(zip(headers, row))` truncates to the shorter
list, so missing trailing cells leave their keys absent. -/
def xlsxDict (header : List String) (cells : List (Option String)) : Row := header.zip cells

/-- The uploaded bytes, abstracted to their standard-library decodings:
`csvRows` is the CSV decoding (first row = header); `xlsxRows` is `some` of
the active-sheet cell rows when the bytes load as a workbook (cell values
rendered as strings, `none` for empty cells), and `none` when `openpyxl`
would fail to load them. -/
structure UploadFile where
  csvRows  : List (List String)
  xlsxRows : Option (List (List (Option String)))
deriving Repr, DecidableEq, Inhabited

/-- `filename.rsplit(".", 1)[-1].lower()`. -/
def extOf (filename : String) : String :=
  lowerString ((splitString '.' filename).getLastD filename)

def REQUIRED_COLUMNS : List String := ["B/S", "avgPrice", "filledQty", "Fill Time", "Date"]

/-- `REQUIRED_COLUMNS - set(rows[0].keys())`. -/
def missingCols (r : Row) : List String :=
  REQUIRED_COLUMNS.filter (fun c => !(r.any (fun p => p.1 == c)))

/-- The row dictionaries of the CSV branch: the first decoded row is the
header and the remaining non-empty rows become dictionaries
(`csv.DictReader` skips fully empty rows). -/
def csvRowsList (file : UploadFile) : List Row :=
  match file.csvRows with
  | [] => []
  | header :: records => (records.filter (fun cells => !cells.isEmpty)).map (csvDict header)

/-- The extension dispatch of `parse_uploaded_file`, producing the row
dictionaries (the Excel branch requires `openpyxl` and a loadable workbook
with a header row). -/
def rowsOf (file : UploadFile) (ext : String) (hasOpenpyxl : Bool) : Except PyErr (List Row) :=
  if ext = "csv" then .ok (csvRowsList file)
  else if ext = "xlsx" ∨ ext = "xls" then
    if !hasOpenpyxl then
      .error (.valueError "openpyxl is required for Excel. Run: pip install openpyxl")
    else
      match file.xlsxRows with
      | none => .error .loadError
      | some [] => .error .stopIteration
      | some (hrow :: records) => .ok (records.map (xlsxDict (hrow.map xlsxHeaderName)))
  else .error (.valueError "Unsupported file type. Upload CSV or XLSX.")

/-- `parse_uploaded_file`: dispatch on the extension, reject empty row sets
and missing required columns, run the row loop, and reject an empty fill
list. -/
def parseUploadedFile (hasOpenpyxl : Bool) (filename : String) (file : UploadFile) :
    Except PyErr (List ParsedFill) := do
  let rows ← rowsOf file (extOf filename) hasOpenpyxl
  if rows.isEmpty then Except.error (.valueError "File is empty.")
  else if !(missingCols (rows.headD [])).isEmpty then
    Except.error (.valueError "Missing required columns")
  else do
    let fills ← processRows rows
    if fills.isEmpty then Except.error (.valueError "No valid fills found in file.")
    else Except.ok fills

/-! ### Specification-side definitions and concrete inputs used by the
verification statements -/

instance exceptDecEq {ε α : Type} [DecidableEq ε] [DecidableEq α] : DecidableEq (Except ε α)
  | .error e, .error e2 =>
      if h : e = e2 then isTrue (by rw [h]) else isFalse (fun hh => by cases hh; exact h rfl)
  | .error _, .ok _ => isFalse (fun h => by cases h)
  | .ok _, .error _ => isFalse (fun h => by cases h)
  | .ok a, .ok b =>
      if h : a = b then isTrue (by rw [h]) else isFalse (fun hh => by cases hh; exact h rfl)

/-- Specification-side statement of the signed stop P&L a portion contributes
to the worst case: zero when the portion has no stop level or no remaining
quantity, else the signed P&L of stopping out the remaining quantity. -/
def stopPnlContribution (entry dpp : ℚ) (is_long : Bool) (levels : List Level)
    (execs : List Execution) (p : Int) : ℚ :=
  match portionLevel levels "stop" p with
  | none => 0
  | some stop_lv =>
      let rem := stop_lv.qty - portionExited execs p
      if rem ≤ 0 then 0
      else if is_long then (stop_lv.price - entry) * (rem : ℚ) * dpp
      else (entry - stop_lv.price) * (rem : ℚ) * dpp

/-- Specification-side worst-case P&L: the sum over remaining portions of the
signed stop P&L of their remaining quantity (the single stop level scaled by
the full remaining quantity in full mode), plus the realized P&L. -/
def specWorstCase (cfg : DbConfig) (lt : LiveTrade) : ℚ :=
  let dpp := (resolveInstrument cfg lt.instrument).dollars_per_point
  let is_long := lt.direction = "Long"
  (if lt.mode = "partials" then
    (([1, 2, 3] : List Int).map
      (stopPnlContribution lt.entry_price dpp is_long lt.levels lt.executions)).sum
  else
    match lt.levels.find? (fun lv => lv.level_type == "stop") with
    | some s =>
        if is_long then (s.price - lt.entry_price) * (remainingQty lt : ℚ) * dpp
        else (lt.entry_price - s.price) * (remainingQty lt : ℚ) * dpp
    | none => 0) + realizedPnl lt

/-- Specification-side unrounded volume-weighted entry average of a fill
group (the `avg_entry` expression of `_compute_stats` before rounding). -/
def avgEntryRaw (fills : List Fill) : ℚ :=
  if fills.headI.side = "Sell" ∧ sellQty fills ≠ 0 then sellVal fills / (sellQty fills : ℚ)
  else if buyQty fills ≠ 0 then buyVal fills / (buyQty fills : ℚ) else 0

/-- Specification-side unrounded volume-weighted exit average of a fill
group. -/
def avgExitRaw (fills : List Fill) : ℚ :=
  if fills.headI.side = "Sell" ∧ buyQty fills ≠ 0 then buyVal fills / (buyQty fills : ℚ)
  else if sellQty fills ≠ 0 then sellVal fills / (sellQty fills : ℚ) else 0

/-- The quantities of the three stop levels of a partials-mode plan. -/
def partialStopQtys (cfg : DbConfig) (direction instrument : String)
    (entry : ℚ) (total : Int) : List Int :=
  ((computeLiveTradePlan cfg direction instrument entry total "partials").filter
    (fun lv => lv.level_type == "stop")).map Level.qty

/-- A day of fills whose final position is open (+1) although both sides
traded, so the `open` flag of the last trade is `false`. -/
def partialOffsetFills : List Fill :=
  [⟨"Buy", 2, 100, "09:30:00", "2024-01-01"⟩, ⟨"Sell", 1, 105, "09:31:00", "2024-01-01"⟩]

/-- A day with one closed round trip followed by a genuinely open one. -/
def closedThenOpenFills : List Fill :=
  [⟨"Buy", 1, 100, "09:30:00", "2024-01-01"⟩, ⟨"Sell", 1, 105, "09:31:00", "2024-01-01"⟩,
   ⟨"Buy", 1, 101, "09:32:00", "2024-01-01"⟩]

/-- The scenario of the specification: `[Buy 1@100 9:30:00, Sell 1@105
9:35:00]` on 2024-01-01. -/
def scenarioFills : List Fill :=
  [⟨"Buy", 1, 100, "09:30:00", "2024-01-01"⟩, ⟨"Sell", 1, 105, "09:35:00", "2024-01-01"⟩]

/-- The single trade reconstructed from `scenarioFills`. -/
def scenarioTrade : TradeStats :=
  ((reconstructTrades scenarioFills).headD default).trades.headD default

/-- Two same-day fills with identical times: the relative input order decides
the reconstruction. -/
def tieTimeFills : List Fill :=
  [⟨"Buy", 1, 100, "09:30:00", "2024-01-01"⟩, ⟨"Sell", 1, 105, "09:30:00", "2024-01-01"⟩]

/-- Two same-day fills with distinct times, listed out of order. -/
def outOfOrderFills : List Fill :=
  [⟨"Sell", 1, 105, "09:31:00", "2024-01-01"⟩, ⟨"Buy", 1, 100, "09:30:00", "2024-01-01"⟩]

/-- The same two fills sorted by time. -/
def inOrderFills : List Fill :=
  [⟨"Buy", 1, 100, "09:30:00", "2024-01-01"⟩, ⟨"Sell", 1, 105, "09:31:00", "2024-01-01"⟩]

/-- A full-mode Long live trade: entry 100, qty 2, stop 80, take-profit 120,
no executions yet. -/
def liveTradeFullExample : LiveTrade :=
  { total_qty := 2, entry_price := 100, direction := "Long", instrument := "MES", mode := "full",
    levels := [⟨"stop", 1, 2, 80, 200, 0⟩, ⟨"tp", 1, 2, 120, 0, 200⟩], executions := [] }

/-- A fully exited live trade (one execution covering the whole quantity). -/
def liveTradeClosedExample : LiveTrade :=
  { total_qty := 1, entry_price := 100, direction := "Long", instrument := "MES", mode := "full",
    levels := [⟨"stop", 1, 1, 80, 100, 0⟩], executions := [⟨1, 1, 110, 50, "10:00"⟩] }

/-- A configuration overriding the MES dollars-per-point in the database. -/
def mesOverrideCfg : DbConfig := [("inst_MES_dpp", 50)]

/-- A configuration holding only a key no lookup consults. -/
def unrelatedCfg : DbConfig := [("unrelated_key", 1)]

/-- The header row shared by the concrete uploaded files below. -/
def csvHeader : List String := ["B/S", "avgPrice", "filledQty", "Fill Time", "Date"]

/-- A CSV upload whose single row has a blank `Date` value. -/
def blankDateFile : UploadFile :=
  ⟨[csvHeader, ["Buy", "100", "1", "09:30:00", ""]], none⟩

/-- A CSV upload whose single row has quantity `"inf"`. -/
def infQtyFile : UploadFile :=
  ⟨[csvHeader, ["Buy", "100", "inf", "09:30:00", "2024-01-01"]], none⟩

/-- A CSV upload whose single row has an unparsable fill time. -/
def badTimeFile : UploadFile :=
  ⟨[csvHeader, ["Buy", "100", "1", "zz", "2024-01-01"]], none⟩

/-- An upload with no rows at all. -/
def emptyUpload : UploadFile := ⟨[], none⟩

/-! ### Theorems -/

theorem signedSum_append (l₁ l₂ : List Fill) :
    signedSum (l₁ ++ l₂) = signedSum l₁ + signedSum l₂ := by
  simp [signedSum]

theorem signedSum_eq_buy_sub_sell (fills : List Fill) :
    signedSum fills = buyQty fills - sellQty fills := by
  induction fills with
  | nil => simp [signedSum, buyQty, sellQty]
  | cons f rest ih =>
      by_cases h : f.side = "Buy" <;>
        simp [signedSum, buyQty, sellQty, signedQty, h, List.filter_cons] at ih ⊢ <;>
        omega

theorem computeStats_fills (fills : List Fill) (n : Nat) :
    (computeStats fills n).fills = fills := rfl

theorem buyQty_pos_of_mem {fills : List Fill} {f : Fill} (hf : f ∈ fills)
    (hside : f.side = "Buy") (hq : ∀ g ∈ fills, 0 < g.qty) : 0 < buyQty fills := by
  have hmem : f.qty ∈ (fills.filter (fun g => g.side == "Buy")).map Fill.qty :=
    List.mem_map_of_mem _ (List.mem_filter.mpr ⟨hf, by simp [hside]⟩)
  have hle := List.single_le_sum (l := (fills.filter (fun g => g.side == "Buy")).map Fill.qty)
    (fun x hx => by
      rcases List.mem_map.mp hx with ⟨g, hg, rfl⟩
      exact le_of_lt (hq g (List.mem_of_mem_filter hg))) _ hmem
  have := hq f hf
  unfold buyQty
  omega

theorem sellQty_pos_of_mem {fills : List Fill} {f : Fill} (hf : f ∈ fills)
    (hside : ¬ f.side = "Buy") (hq : ∀ g ∈ fills, 0 < g.qty) : 0 < sellQty fills := by
  have hmem : f.qty ∈ (fills.filter (fun g => ¬ g.side == "Buy")).map Fill.qty :=
    List.mem_map_of_mem _ (List.mem_filter.mpr ⟨hf, by simp [hside]⟩)
  have hle := List.single_le_sum (l := (fills.filter (fun g => ¬ g.side == "Buy")).map Fill.qty)
    (fun x hx => by
      rcases List.mem_map.mp hx with ⟨g, hg, rfl⟩
      exact le_of_lt (hq g (List.mem_of_mem_filter hg))) _ hmem
  have := hq f hf
  unfold sellQty
  omega

theorem computeStats_closed_openFlag (fills : List Fill) (n : Nat) (hne : fills ≠ [])
    (hq : ∀ f ∈ fills, 0 < f.qty) (hsum : signedSum fills = 0) :
    (computeStats fills n).openFlag = false := by
  have hbs := signedSum_eq_buy_sub_sell fills
  have hhead : fills.headI ∈ fills := by
    cases fills with
    | nil => exact absurd rfl hne
    | cons f t => simp
  have hpos : 0 < buyQty fills ∧ 0 < sellQty fills := by
    by_cases h : fills.headI.side = "Buy"
    · have hb := buyQty_pos_of_mem hhead h hq
      exact ⟨hb, by omega⟩
    · have hs := sellQty_pos_of_mem hhead h hq
      exact ⟨by omega, hs⟩
  show decide _ = false
  simp only [decide_eq_false_iff_not]
  rintro (⟨-, hb0⟩ | ⟨-, hs0⟩) <;> omega

theorem signedSum_concat (l : List Fill) (f : Fill) :
    signedSum (l ++ [f]) = signedSum l + signedQty f := by
  simp [signedSum]

theorem buildRoundTripsGo_dropLast_zero :
    ∀ (rest : List Fill) (pos : Int) (current : List Fill) (trades : List TradeStats),
      pos = signedSum current →
      (∀ t ∈ trades, signedSum t.fills = 0) →
      ∀ t ∈ (buildRoundTripsGo rest pos current trades).dropLast, signedSum t.fills = 0 := by
  intro rest
  induction rest with
  | nil =>
      intro pos current trades h1 h2 t ht
      unfold buildRoundTripsGo at ht
      by_cases hc : current.isEmpty
      · rw [if_pos hc] at ht
        exact h2 t (List.dropLast_subset _ ht)
      · rw [if_neg hc, List.dropLast_concat] at ht
        exact h2 t ht
  | cons f rs ih =>
      intro pos current trades h1 h2 t ht
      unfold buildRoundTripsGo at ht
      by_cases hz : pos + signedQty f = 0
      · simp only [hz, if_pos rfl] at ht
        refine ih 0 [] _ (by simp [signedSum]) ?_ t ht
        intro t' ht'
        rcases List.mem_append.mp ht' with h | h
        · exact h2 t' h
        · have ht'' : t' = computeStats (current ++ [f]) (trades.length + 1) := by
            simpa using h
          subst ht''
          rw [computeStats_fills, signedSum_concat, ← h1]
          exact hz
      · rw [if_neg hz] at ht
        exact ih _ _ _ (by rw [signedSum_concat, ← h1]) h2 t ht

theorem buildRoundTripsGo_last_open :
    ∀ (rest : List Fill) (pos : Int) (current : List Fill) (trades : List TradeStats),
      pos = signedSum current →
      (∀ f ∈ current, 0 < f.qty) →
      (∀ f ∈ rest, 0 < f.qty) →
      (current ≠ [] → pos ≠ 0) →
      (∀ t ∈ trades, t.openFlag = true → signedSum t.fills ≠ 0) →
      (((buildRoundTripsGo rest pos current trades).getLastD default).openFlag = true →
        signedSum ((buildRoundTripsGo rest pos current trades).getLastD default).fills ≠ 0) := by
  intro rest
  induction rest with
  | nil =>
      intro pos current trades h1 hqc _ h3 h2
      unfold buildRoundTripsGo
      by_cases hc : current.isEmpty
      · rw [if_pos hc]
        rcases List.mem_cons.mp (List.getLastD_mem_cons trades default) with hd | hmem
        · rw [hd]
          intro hopen
          exact absurd hopen (by decide)
        · exact h2 _ hmem
      · rw [if_neg hc, List.getLastD_concat]
        intro _
        rw [computeStats_fills, ← h1]
        exact h3 (fun h => hc (by simp [h]))
  | cons f rs ih =>
      intro pos current trades h1 hqc hqr h3 h2
      unfold buildRoundTripsGo
      by_cases hz : pos + signedQty f = 0
      · simp only [hz, if_pos rfl]
        refine ih 0 [] _ (by simp [signedSum]) (by simp)
          (fun g hg => hqr g (by simp [hg])) (by simp) ?_
        intro t' ht' hopen
        rcases List.mem_append.mp ht' with h | h
        · exact h2 t' h hopen
        · have ht'' : t' = computeStats (current ++ [f]) (trades.length + 1) := by simpa using h
          subst ht''
          have hsum : signedSum (current ++ [f]) = 0 := by
            rw [signedSum_concat, ← h1]; exact hz
          have hqall : ∀ g ∈ current ++ [f], 0 < g.qty := by
            intro g hg
            rcases List.mem_append.mp hg with h' | h'
            · exact hqc g h'
            · have : g = f := by simpa using h'
              subst this
              exact hqr g (by simp)
          have hflag := computeStats_closed_openFlag (current ++ [f]) (trades.length + 1)
            (by simp) hqall hsum
          rw [hflag] at hopen
          cases hopen
      · rw [if_neg hz]
        refine ih _ _ _ (by rw [signedSum_concat, ← h1]) ?_
          (fun g hg => hqr g (by simp [hg])) (fun _ => hz) h2
        intro g hg
        rcases List.mem_append.mp hg with h' | h'
        · exact hqc g h'
        · have : g = f := by simpa using h'
          subst this
          exact hqr g (by simp)

/-- C1 (amended): every reconstructed round trip except possibly the last has
signed fill-quantity sum zero, and when the last trade has `open = true` its
signed sum is nonzero. -/
theorem c1_signed_sum_invariant (fills : List Fill) (hq : ∀ f ∈ fills, 0 < f.qty) :
    (∀ t ∈ (buildRoundTrips fills).dropLast, signedSum t.fills = 0) ∧
    (((buildRoundTrips fills).getLastD default).openFlag = true →
      signedSum ((buildRoundTrips fills).getLastD default).fills ≠ 0) :=
  ⟨buildRoundTripsGo_dropLast_zero fills 0 [] [] (by simp [signedSum]) (by simp),
   buildRoundTripsGo_last_open fills 0 [] [] (by simp [signedSum]) (by simp) hq (by simp) (by simp)⟩

/-- C1 counterexample: for `[Buy 2, Sell 1]` the reconstructor produces one
final trade with signed sum `1 ≠ 0` whose `open` flag is `false`, so the
claimed equivalence between a nonzero signed sum and the `open` flag fails. -/
theorem c1_last_nonzero_open_false :
    (∀ f ∈ partialOffsetFills, 0 < f.qty) ∧
    (buildRoundTrips partialOffsetFills).length = 1 ∧
    signedSum ((buildRoundTrips partialOffsetFills).getLastD default).fills = 1 ∧
    ((buildRoundTrips partialOffsetFills).getLastD default).openFlag = false := by
  decide

/-- C1 witness: the amended statement applied to a day with one closed trade
followed by an open one. -/
theorem c1_signed_sum_invariant_witness :
    (∀ f ∈ closedThenOpenFills, 0 < f.qty) ∧
    (((buildRoundTrips closedThenOpenFills).getLastD default).openFlag = true →
      signedSum ((buildRoundTrips closedThenOpenFills).getLastD default).fills ≠ 0) :=
  ⟨by decide, (c1_signed_sum_invariant closedThenOpenFills (by decide)).2⟩

/-- C5: for a closed fill group the stored P&L is the direction-signed
difference of the unrounded volume-weighted averages times quantity times the
fixed point value 5, rounded to 2 decimals; and the specification scenario
`[Buy 1@100 9:30:00, Sell 1@105 9:35:00]` on 2024-01-01 reconstructs to one
closed Long trade with qty 1, avg entry 100, avg exit 105 and pnl 25.00. -/
theorem c5_pnl_point_value :
    (∀ (fills : List Fill) (n : Nat), buyQty fills ≠ 0 → sellQty fills ≠ 0 →
      (computeStats fills n).pnl =
        roundTo 2 ((if fills.headI.side = "Sell"
            then avgEntryRaw fills - avgExitRaw fills
            else avgExitRaw fills - avgEntryRaw fills) *
          ((max (buyQty fills) (sellQty fills) : ℤ) : ℚ) * 5)) ∧
    (reconstructTrades scenarioFills).map DayTrades.date = ["2024-01-01"] ∧
    ((reconstructTrades scenarioFills).headD default).trades.length = 1 ∧
    scenarioTrade.direction = "Long" ∧ scenarioTrade.qty = 1 ∧
    scenarioTrade.openFlag = false ∧ scenarioTrade.avg_entry = 100 ∧
    scenarioTrade.avg_exit = 105 ∧ scenarioTrade.pnl = 25 := by
  refine ⟨?_, by decide, by decide, by decide, by decide, by decide, ?_, ?_, ?_⟩
  · intro fills n hb hs
    show roundTo 2 _ = roundTo 2 _
    congr 1
    simp only [computeStats, avgEntryRaw, avgExitRaw]
    by_cases hshort : fills.headI.side = "Sell" <;> simp [hshort, hb, hs]
  · show (computeStats scenarioFills 1).avg_entry = 100
    simp +decide only [computeStats, buyQty, buyVal, sellQty, sellVal, scenarioFills,
      List.filter, List.map, List.sum_cons, List.sum_nil]
    norm_num [roundTo, roundHalfEven]
  · show (computeStats scenarioFills 1).avg_exit = 105
    simp +decide only [computeStats, buyQty, buyVal, sellQty, sellVal, scenarioFills,
      List.filter, List.map, List.sum_cons, List.sum_nil]
    norm_num [roundTo, roundHalfEven]
  · show (computeStats scenarioFills 1).pnl = 25
    simp +decide only [computeStats, buyQty, buyVal, sellQty, sellVal, scenarioFills,
      List.filter, List.map, List.sum_cons, List.sum_nil]
    norm_num [roundTo, roundHalfEven]

/-- C5 witness: the closed-group hypotheses hold for the scenario fills, and
the theorem instantiates there. -/
theorem c5_pnl_point_value_witness :
    buyQty scenarioFills ≠ 0 ∧ sellQty scenarioFills ≠ 0 ∧
    (computeStats scenarioFills 1).pnl =
      roundTo 2 ((if scenarioFills.headI.side = "Sell"
          then avgEntryRaw scenarioFills - avgExitRaw scenarioFills
          else avgExitRaw scenarioFills - avgEntryRaw scenarioFills) *
        ((max (buyQty scenarioFills) (sellQty scenarioFills) : ℤ) : ℚ) * 5) :=
  ⟨by decide, by decide, c5_pnl_point_value.1 scenarioFills 1 (by decide) (by decide)⟩

/-- C6: the partials-mode plan has exactly three stop-level quantities; the
remainder goes one unit at a time to the earliest portions, the quantities
sum to the total, and they pairwise differ by at most one. -/
theorem c6_partials_split (cfg : DbConfig) (direction instrument : String)
    (entry : ℚ) (total : Int) (_h : 0 ≤ total) :
    partialStopQtys cfg direction instrument entry total =
      [Int.fdiv total 3 + if 0 < Int.fmod total 3 then 1 else 0,
       Int.fdiv total 3 + if 1 < Int.fmod total 3 then 1 else 0,
       Int.fdiv total 3 + if 2 < Int.fmod total 3 then 1 else 0] ∧
    (partialStopQtys cfg direction instrument entry total).sum = total ∧
    (∀ a ∈ partialStopQtys cfg direction instrument entry total,
      ∀ b ∈ partialStopQtys cfg direction instrument entry total, |a - b| ≤ 1) := by
  have hq : partialStopQtys cfg direction instrument entry total =
      [Int.fdiv total 3 + if 0 < Int.fmod total 3 then 1 else 0,
       Int.fdiv total 3 + if 1 < Int.fmod total 3 then 1 else 0,
       Int.fdiv total 3 + if 2 < Int.fmod total 3 then 1 else 0] := by
    simp +decide [partialStopQtys, computeLiveTradePlan, computeLiveTradePlanWithInst,
      List.range_succ, List.filter]
  have hsum := Int.fdiv_add_fmod total 3
  have hlo := Int.fmod_nonneg' total (b := 3) (by norm_num)
  have hhi := Int.fmod_lt_of_pos total (b := 3) (by norm_num)
  refine ⟨hq, ?_, ?_⟩
  · rw [hq]
    simp only [List.sum_cons, List.sum_nil]
    have : Int.fmod total 3 = 0 ∨ Int.fmod total 3 = 1 ∨ Int.fmod total 3 = 2 := by omega
    rcases this with h' | h' | h' <;> rw [h'] <;> norm_num <;> omega
  · rw [hq]
    intro a ha b hb
    simp only [List.mem_cons, List.not_mem_nil, or_false] at ha hb
    have : Int.fmod total 3 = 0 ∨ Int.fmod total 3 = 1 ∨ Int.fmod total 3 = 2 := by omega
    rcases this with h' | h' | h' <;> rw [h'] at ha hb <;>
      rcases ha with rfl | rfl | rfl <;> rcases hb with rfl | rfl | rfl <;>
      simp <;> omega

/-- C6 witness: splitting 7 into three portions. -/
theorem c6_partials_split_witness :
    (0 : ℤ) ≤ 7 ∧ (partialStopQtys [] "Long" "MES" 100 7).sum = 7 :=
  ⟨by decide, (c6_partials_split [] "Long" "MES" 100 7 (by decide)).2.1⟩

/-- C9: the reported remaining quantity is the total minus exits clamped at
zero (never negative), and `is_closed` holds exactly when the executions
cover the total quantity. -/
theorem c9_remaining_clamped (cfg : DbConfig) (lt : LiveTrade) :
    0 ≤ (recalculateLiveTrade cfg lt).remaining_qty ∧
    (recalculateLiveTrade cfg lt).remaining_qty = max (lt.total_qty - exitedQty lt) 0 ∧
    ((recalculateLiveTrade cfg lt).is_closed = true ↔ lt.total_qty ≤ exitedQty lt) := by
  unfold recalculateLiveTrade recalculateLiveTradeWithInst
  by_cases h : lt.total_qty - exitedQty lt ≤ 0
  · rw [if_pos h]
    dsimp only
    exact ⟨le_refl 0, by omega, by simp; omega⟩
  · rw [if_neg h]
    by_cases hm : lt.mode = "partials"
    · rw [if_pos hm]
      dsimp only
      refine ⟨by omega, by omega, ?_⟩
      simp only [decide_eq_true_iff]
      omega
    · rw [if_neg hm]
      dsimp only
      refine ⟨by omega, by omega, ?_⟩
      simp only [decide_eq_true_iff]
      omega

/-- C10: an instrument name that is neither `"MES"` nor `"ES"` resolves to the
hardcoded MES table entry — not any database-overridden MES values — and the
plan generator, the execution-P&L computation and the risk recalculator all
compute with that hardcoded entry. -/
theorem c10_unknown_instrument_fallback (cfg : DbConfig) (instrument : String)
    (h1 : instrument ≠ "MES") (h2 : instrument ≠ "ES") :
    resolveInstrument cfg instrument = instMES ∧
    (∀ direction entry_price exec_price qty,
      computeExecutionPnl cfg direction instrument entry_price exec_price qty =
        computeExecutionPnlWithInst instMES direction entry_price exec_price qty) ∧
    (∀ direction entry_price total_qty mode,
      computeLiveTradePlan cfg direction instrument entry_price total_qty mode =
        computeLiveTradePlanWithInst instMES (getTradeDefaults cfg)
          direction entry_price total_qty mode) ∧
    (∀ lt : LiveTrade, lt.instrument = instrument →
      recalculateLiveTrade cfg lt = recalculateLiveTradeWithInst instMES lt) := by
  have e1 : ("MES" == instrument) = false := by
    rw [beq_eq_false_iff_ne]
    exact fun hh => h1 hh.symm
  have e2 : ("ES" == instrument) = false := by
    rw [beq_eq_false_iff_ne]
    exact fun hh => h2 hh.symm
  have hres : resolveInstrument cfg instrument = instMES := by
    unfold resolveInstrument getInstrumentConfig
    simp [List.find?, e1, e2]
  refine ⟨hres, ?_, ?_, ?_⟩
  · intro direction entry_price exec_price qty
    unfold computeExecutionPnl
    rw [hres]
  · intro direction entry_price total_qty mode
    unfold computeLiveTradePlan
    rw [hres]
  · intro lt hlt
    unfold recalculateLiveTrade
    rw [hlt, hres]

/-- C10 witness: the unknown instrument `"NQ"` bypasses a database override of
the MES dollars-per-point and resolves to the hardcoded entry. -/
theorem c10_unknown_instrument_fallback_witness :
    resolveInstrument mesOverrideCfg "NQ" = instMES :=
  (c10_unknown_instrument_fallback mesOverrideCfg "NQ" (by decide) (by decide)).1

/-- C4 counterexample: the recalculator reads the database configuration, so
the same (LiveTrade, levels, executions) triple yields different snapshots
under different stored configurations (current risk 2000 with the MES
dollars-per-point overridden to 50, versus 200 with the defaults). -/
theorem c4_config_dependence :
    recalculateLiveTrade mesOverrideCfg liveTradeFullExample ≠
      recalculateLiveTrade [] liveTradeFullExample := by
  have hA : (recalculateLiveTrade mesOverrideCfg liveTradeFullExample).current_risk = 2000 := by
    have hres : resolveInstrument mesOverrideCfg "MES" = ⟨50, 5/4, 4⟩ := rfl
    show (recalculateLiveTradeWithInst (resolveInstrument mesOverrideCfg "MES")
        liveTradeFullExample).current_risk = 2000
    rw [hres]
    simp +decide [recalculateLiveTradeWithInst, liveTradeFullExample, exitedQty,
      realizedPnl, List.find?]
    norm_num [roundTo, roundHalfEven]
  have hB : (recalculateLiveTrade [] liveTradeFullExample).current_risk = 200 := by
    have hres : resolveInstrument [] "MES" = ⟨5, 5/4, 4⟩ := rfl
    show (recalculateLiveTradeWithInst (resolveInstrument [] "MES")
        liveTradeFullExample).current_risk = 200
    rw [hres]
    simp +decide [recalculateLiveTradeWithInst, liveTradeFullExample, exitedQty,
      realizedPnl, List.find?]
    norm_num [roundTo, roundHalfEven]
  intro h
  rw [h, hB] at hA
  norm_num at hA

/-- C4 (amended): the recalculator is deterministic in the (LiveTrade,
levels, executions) triple together with the instrument configuration: any
two configurations that resolve the instrument of the trade identically give
identical snapshots. -/
theorem c4_deterministic_given_instrument (cfg cfg' : DbConfig) (lt : LiveTrade)
    (h : resolveInstrument cfg lt.instrument = resolveInstrument cfg' lt.instrument) :
    recalculateLiveTrade cfg lt = recalculateLiveTrade cfg' lt := by
  unfold recalculateLiveTrade
  rw [h]

/-- C4 witness: a configuration with an unrelated key resolves MES like the
empty configuration, so the snapshots agree. -/
theorem c4_deterministic_given_instrument_witness :
    recalculateLiveTrade unrelatedCfg liveTradeFullExample =
      recalculateLiveTrade [] liveTradeFullExample :=
  c4_deterministic_given_instrument unrelatedCfg [] liveTradeFullExample rfl

/-- C3 counterexample: for a fully exited trade the early-return snapshot has
no `net_stop_exposure` key, so the claimed field list fails. -/
theorem c3_closed_snapshot_missing_field :
    remainingQty liveTradeClosedExample ≤ 0 ∧
    (recalculateLiveTrade [] liveTradeClosedExample).net_stop_exposure = none := by
  refine ⟨by decide, ?_⟩
  rfl

/-- C3 (amended): the snapshot carries `net_stop_exposure` exactly when the
trade still has remaining quantity; when it does not, the recalculator
returns the closed snapshot with zero risk and reward and `is_closed`
true. -/
theorem c3_snapshot_fields (cfg : DbConfig) (lt : LiveTrade) :
    ((recalculateLiveTrade cfg lt).net_stop_exposure.isSome ↔ 0 < remainingQty lt) ∧
    (remainingQty lt ≤ 0 →
      recalculateLiveTrade cfg lt =
        { remaining_qty := 0, exited_qty := exitedQty lt
          realized_pnl := roundTo 2 (realizedPnl lt)
          current_risk := 0, potential_reward := 0
          initial_risk := roundTo 2 (initialRiskWith
            (resolveInstrument cfg lt.instrument).dollars_per_point lt.entry_price lt.levels)
          net_stop_exposure := none
          active_portions := [], portion_details := [], is_closed := true }) := by
  unfold recalculateLiveTrade recalculateLiveTradeWithInst remainingQty
  by_cases h : lt.total_qty - exitedQty lt ≤ 0
  · rw [if_pos h]
    exact ⟨by simpa using by omega, fun _ => rfl⟩
  · rw [if_neg h]
    constructor
    · by_cases hm : lt.mode = "partials"
      · rw [if_pos hm]
        simpa using by omega
      · rw [if_neg hm]
        simpa using by omega
    · intro hc
      exact absurd hc h

/-- C3 witness: the amended statement applied to the fully exited trade. -/
theorem c3_snapshot_fields_witness :
    remainingQty liveTradeClosedExample ≤ 0 ∧
    recalculateLiveTrade [] liveTradeClosedExample =
      { remaining_qty := 0, exited_qty := exitedQty liveTradeClosedExample
        realized_pnl := roundTo 2 (realizedPnl liveTradeClosedExample)
        current_risk := 0, potential_reward := 0
        initial_risk := roundTo 2 (initialRiskWith
          (resolveInstrument [] liveTradeClosedExample.instrument).dollars_per_point
          liveTradeClosedExample.entry_price liveTradeClosedExample.levels)
        net_stop_exposure := none
        active_portions := [], portion_details := [], is_closed := true } :=
  ⟨by decide, (c3_snapshot_fields [] liveTradeClosedExample).2 (by decide)⟩

theorem partialsStep_fst (entry dpp : ℚ) (lg : Bool) (lv : List Level)
    (ex : List Execution) (st : ℚ × ℚ × List PortionDetail) (p : Int) :
    (partialsStep entry dpp lg lv ex st p).1 =
      st.1 + stopPnlContribution entry dpp lg lv ex p := by
  unfold partialsStep stopPnlContribution
  cases h : portionLevel lv "stop" p with
  | none => simp
  | some s =>
      by_cases hr : s.qty - portionExited ex p ≤ 0
      · simp [hr]
      · cases lg <;> simp [hr]

theorem foldl_partialsStep_fst (entry dpp : ℚ) (lg : Bool) (lv : List Level)
    (ex : List Execution) :
    ∀ (ps : List Int) (st : ℚ × ℚ × List PortionDetail),
      (ps.foldl (partialsStep entry dpp lg lv ex) st).1 =
        st.1 + ((ps.map (stopPnlContribution entry dpp lg lv ex)).sum) := by
  intro ps
  induction ps with
  | nil => intro st; simp
  | cons p rest ih =>
      intro st
      rw [List.foldl_cons, ih, partialsStep_fst]
      simp only [List.map_cons, List.sum_cons]
      ring

/-- C2: with remaining quantity and (in full mode) a stop level present, the
net stop exposure of the snapshot is the specification worst case — the sum
over remaining portions of their signed stop P&L plus the realized P&L —
rounded to 2 decimals, and the current risk is its absolute value when it is
negative and zero otherwise, rounded to 2 decimals. -/
theorem c2_worst_case_risk (cfg : DbConfig) (lt : LiveTrade)
    (hrem : 0 < remainingQty lt)
    (hstop : lt.mode = "partials" ∨
      (lt.levels.find? (fun l => l.level_type == "stop")).isSome) :
    (recalculateLiveTrade cfg lt).net_stop_exposure =
      some (roundTo 2 (specWorstCase cfg lt)) ∧
    (recalculateLiveTrade cfg lt).current_risk =
      roundTo 2 (if specWorstCase cfg lt < 0 then |specWorstCase cfg lt| else 0) := by
  unfold recalculateLiveTrade recalculateLiveTradeWithInst
  have h : ¬ (lt.total_qty - exitedQty lt ≤ 0) := by
    unfold remainingQty at hrem
    omega
  rw [if_neg h]
  by_cases hm : lt.mode = "partials"
  · rw [if_pos hm]
    have hw : specWorstCase cfg lt =
        (List.foldl (partialsStep lt.entry_price
            (resolveInstrument cfg lt.instrument).dollars_per_point
            (decide (lt.direction = "Long")) lt.levels lt.executions) (0, 0, [])
          [1, 2, 3]).1 + realizedPnl lt := by
      rw [foldl_partialsStep_fst]
      simp [specWorstCase, hm]
    dsimp only
    rw [hw]
    exact ⟨rfl, rfl⟩
  · rw [if_neg hm]
    rcases hstop with hstop | hstop
    · exact absurd hstop hm
    · rcases Option.isSome_iff_exists.mp hstop with ⟨s, hs⟩
      have hw : specWorstCase cfg lt =
          (if lt.direction = "Long" then
            (s.price - lt.entry_price) * ((remainingQty lt : ℤ) : ℚ) *
              (resolveInstrument cfg lt.instrument).dollars_per_point
          else
            (lt.entry_price - s.price) * ((remainingQty lt : ℤ) : ℚ) *
              (resolveInstrument cfg lt.instrument).dollars_per_point) +
            realizedPnl lt := by
        simp [specWorstCase, hm, hs]
      dsimp only
      rw [hs]
      unfold remainingQty at hw
      rw [hw]
      exact ⟨rfl, rfl⟩

/-- C2 witness: the full-mode example trade has remaining quantity and a stop
level, and the theorem instantiates there. -/
theorem c2_worst_case_risk_witness :
    0 < remainingQty liveTradeFullExample ∧
    (recalculateLiveTrade [] liveTradeFullExample).net_stop_exposure =
      some (roundTo 2 (specWorstCase [] liveTradeFullExample)) :=
  ⟨by decide, (c2_worst_case_risk [] liveTradeFullExample (by decide)
    (Or.inr (by decide))).1⟩

theorem listCharLEb_total : ∀ a b : List Char, listCharLEb a b = true ∨ listCharLEb b a = true := by
  intro a
  induction a with
  | nil => intro b; left; rfl
  | cons x xs ih =>
      intro b
      cases b with
      | nil => right; rfl
      | cons y ys =>
          by_cases h1 : x < y
          · left; simp [listCharLEb, h1]
          · by_cases h2 : y < x
            · right; simp [listCharLEb, h1, h2]
            · rcases ih ys with h | h
              · left; simp [listCharLEb, h1, h2, h]
              · right; simp [listCharLEb, h1, h2, h]

theorem listCharLEb_trans :
    ∀ a b c : List Char, listCharLEb a b = true → listCharLEb b c = true →
      listCharLEb a c = true := by
  intro a
  induction a with
  | nil => intro b c _ _; rfl
  | cons x xs ih =>
      intro b c hab hbc
      cases b with
      | nil => simp [listCharLEb] at hab
      | cons y ys =>
          cases c with
          | nil => simp [listCharLEb] at hbc
          | cons z zs =>
              simp only [listCharLEb] at hab hbc ⊢
              by_cases hxy : x < y <;> by_cases hyz : y < z
              · have hxz : x < z := lt_trans hxy hyz
                simp [hxz]
              · by_cases hzy : z < y
                · simp [hyz, hzy] at hbc
                · have hyz' : y = z := le_antisymm (not_lt.mp hzy) (not_lt.mp hyz)
                  subst hyz'
                  simp [hxy]
              · by_cases hyx : y < x
                · simp [hxy, hyx] at hab
                · have hxy' : x = y := le_antisymm (not_lt.mp hyx) (not_lt.mp hxy)
                  subst hxy'
                  simp [hyz]
              · by_cases hyx : y < x
                · simp [hxy, hyx] at hab
                · by_cases hzy : z < y
                  · simp [hyz, hzy] at hbc
                  · have hxy' : x = y := le_antisymm (not_lt.mp hyx) (not_lt.mp hxy)
                    have hyz' : y = z := le_antisymm (not_lt.mp hzy) (not_lt.mp hyz)
                    subst hxy'; subst hyz'
                    simp only [lt_irrefl, if_false] at hab hbc ⊢
                    exact ih _ _ hab hbc

theorem listCharLEb_antisymm :
    ∀ a b : List Char, listCharLEb a b = true → listCharLEb b a = true → a = b := by
  intro a
  induction a with
  | nil =>
      intro b _ hba
      cases b with
      | nil => rfl
      | cons y ys => simp [listCharLEb] at hba
  | cons x xs ih =>
      intro b hab hba
      cases b with
      | nil => simp [listCharLEb] at hab
      | cons y ys =>
          simp only [listCharLEb] at hab hba
          by_cases hxy : x < y
          · have hyx : ¬ y < x := lt_asymm hxy
            simp [hxy, hyx] at hba
          · by_cases hyx : y < x
            · simp [hxy, hyx] at hab
            · have hxy' : x = y := le_antisymm (not_lt.mp hyx) (not_lt.mp hxy)
              subst hxy'
              simp only [lt_irrefl, if_false] at hab hba
              rw [ih ys hab hba]

theorem string_toList_inj {s t : String} (h : s.toList = t.toList) : s = t := by
  cases s
  cases t
  exact congrArg String.mk (by simpa [String.toList] using h)

instance : IsTotal Fill timeLE := ⟨fun a b => listCharLEb_total a.time.toList b.time.toList⟩

instance : IsTrans Fill timeLE :=
  ⟨fun _ _ _ h1 h2 => listCharLEb_trans _ _ _ h1 h2⟩

theorem timeLE_antisymm {f g : Fill} (h1 : timeLE f g) (h2 : timeLE g f) :
    f.time = g.time :=
  string_toList_inj (listCharLEb_antisymm _ _ h1 h2)


theorem sorted_perm_nodup_time_eq :
    ∀ (l₁ l₂ : List Fill), l₁.Perm l₂ → l₁.Sorted timeLE → l₂.Sorted timeLE →
      (l₁.map Fill.time).Nodup → l₁ = l₂ := by
  intro l₁
  induction l₁ with
  | nil =>
      intro l₂ hp _ _ _
      exact (hp.symm.eq_nil).symm
  | cons a t₁ ih =>
      intro l₂ hp hs₁ hs₂ hnd
      cases l₂ with
      | nil => exact absurd hp.eq_nil (by simp)
      | cons b t₂ =>
          rcases List.sorted_cons.mp hs₁ with ⟨ha₁, hs₁'⟩
          rcases List.sorted_cons.mp hs₂ with ⟨hb₂, hs₂'⟩
          have hnd0 : a.time ∉ t₁.map Fill.time ∧ (t₁.map Fill.time).Nodup := by
            rw [List.map_cons] at hnd
            exact List.nodup_cons.mp hnd
          rcases List.mem_cons.mp (hp.mem_iff.mp (List.mem_cons_self a t₁)) with hab | hat₂
          · subst hab
            have ht : t₁.Perm t₂ := hp.cons_inv
            rw [ih t₂ ht hs₁' hs₂' hnd0.2]
          · rcases List.mem_cons.mp (hp.symm.mem_iff.mp (List.mem_cons_self b t₂)) with hba | hbt₁
            · subst hba
              have ht : t₁.Perm t₂ := hp.cons_inv
              rw [ih t₂ ht hs₁' hs₂' hnd0.2]
            · have h1 : timeLE a b := ha₁ b hbt₁
              have h2 : timeLE b a := hb₂ a hat₂
              have heq : a.time = b.time := timeLE_antisymm h1 h2
              exact absurd (heq ▸ List.mem_map_of_mem Fill.time hbt₁) hnd0.1


theorem foldl_addToGroup_single (d : String) :
    ∀ (fills pre : List Fill), (∀ f ∈ fills, f.date = d) →
      fills.foldl addToGroup [(d, pre)] = [(d, pre ++ fills)] := by
  intro fills
  induction fills with
  | nil => intro pre _; simp
  | cons f rest ih =>
      intro pre h
      have hd : f.date = d := h f (by simp)
      have hstep : addToGroup [(d, pre)] f = [(d, pre ++ [f])] := by
        simp [addToGroup, hd]
      rw [List.foldl_cons, hstep, ih (pre ++ [f]) (fun g hg => h g (by simp [hg]))]
      simp

theorem groupByDate_single (d : String) (fills : List Fill) (hne : fills ≠ [])
    (h : ∀ f ∈ fills, f.date = d) : groupByDate fills = [(d, fills)] := by
  cases fills with
  | nil => exact absurd rfl hne
  | cons f rest =>
      have hd : f.date = d := h f (by simp)
      unfold groupByDate
      rw [List.foldl_cons]
      have h0 : addToGroup [] f = [(f.date, [f])] := by simp [addToGroup]
      rw [h0, hd, foldl_addToGroup_single d rest [f] (fun g hg => h g (by simp [hg]))]
      simp

/-- C7 (amended): on a single day whose fill times are pairwise distinct,
reconstruction is invariant under permutations of the input fills; with
duplicate times the stable sort preserves the input order, so the claim as
stated fails (see the tie counterexample). -/
theorem c7_order_stable (fills fills' : List Fill) (d : String)
    (hperm : fills'.Perm fills) (hdate : ∀ f ∈ fills, f.date = d)
    (hnodup : (fills.map Fill.time).Nodup) :
    reconstructTrades fills' = reconstructTrades fills := by
  have hdate' : ∀ f ∈ fills', f.date = d := fun f hf => hdate f (hperm.subset hf)
  have hsort : sortFillsByTime fills' = sortFillsByTime fills := by
    apply sorted_perm_nodup_time_eq
    · exact (List.perm_insertionSort timeLE fills').trans
        (hperm.trans (List.perm_insertionSort timeLE fills).symm)
    · exact List.sorted_insertionSort timeLE fills'
    · exact List.sorted_insertionSort timeLE fills
    · have hpm : ((sortFillsByTime fills').map Fill.time).Perm (fills.map Fill.time) :=
        ((List.perm_insertionSort timeLE fills').trans hperm).map Fill.time
      exact hpm.nodup_iff.mpr hnodup
  by_cases hempty : fills = []
  · subst hempty
    have : fills' = [] := hperm.eq_nil
    rw [this]
  · have hempty' : fills' ≠ [] := by
      intro hh
      rw [hh] at hperm
      exact hempty hperm.symm.eq_nil
    unfold reconstructTrades
    rw [groupByDate_single d fills hempty hdate, groupByDate_single d fills' hempty' hdate']
    simp only [List.insertionSort, List.orderedInsert, List.map_cons, List.map_nil]
    rw [hsort]

/-- C7 counterexample: two same-day fills sharing one timestamp reconstruct
to a Long trade in one input order and a Short trade in the reversed order,
so out-of-order permutations do not yield identical groupings. -/
theorem c7_tie_order_dependence :
    (tieTimeFills.reverse).Perm tieTimeFills ∧
    ((reconstructTrades tieTimeFills).headD default).trades.map TradeStats.direction =
      ["Long"] ∧
    ((reconstructTrades tieTimeFills.reverse).headD default).trades.map TradeStats.direction =
      ["Short"] := by
  exact ⟨List.reverse_perm tieTimeFills, by decide, by decide⟩

/-- C7 witness: with distinct times the out-of-order input reconstructs
identically to the sorted input. -/
theorem c7_order_stable_witness :
    outOfOrderFills.Perm inOrderFills ∧
    reconstructTrades outOfOrderFills = reconstructTrades inOrderFills := by
  have hp : outOfOrderFills.Perm inOrderFills := by
    unfold outOfOrderFills inOrderFills
    exact List.Perm.swap _ _ _
  exact ⟨hp, c7_order_stable inOrderFills outOfOrderFills "2024-01-01" hp (by decide) (by decide)⟩

theorem except_bind_ok {ε α β : Type} (a : α) (f : α → Except ε β) :
    (Except.ok a : Except ε α) >>= f = f a := rfl

theorem except_bind_error {ε α β : Type} (e : ε) (f : α → Except ε β) :
    (Except.error e : Except ε α) >>= f = Except.error e := rfl

theorem rowIndex_error (r : Row) (k : String) (e : PyErr) (h : rowIndex r k = .error e) :
    e = .keyError := by
  unfold rowIndex at h
  cases hg : rowGetOpt r k with
  | none => rw [hg] at h; injection h with h'; exact h'.symm
  | some v => rw [hg] at h; cases h

theorem pyIntOfFloat_error (f : PyFloat) (e : PyErr) (h : pyIntOfFloat f = .error e) :
    e = .overflowError ∨ ∃ m, e = .valueError m := by
  cases f with
  | fin q => cases h
  | inf => injection h with h'; exact Or.inl h'.symm
  | ninf => injection h with h'; exact Or.inl h'.symm
  | nan => injection h with h'; exact Or.inr ⟨_, h'.symm⟩

theorem parseDateStr_error (s : String) (e : PyErr) (h : parseDateStr s = .error e) :
    e = .indexError := by
  unfold parseDateStr at h
  cases htk : wsTokens (pyStrip s) with
  | nil => rw [htk] at h; injection h with h'; exact h'.symm
  | cons a l =>
      rw [htk] at h
      dsimp only at h
      cases hfmt : (parseMDY a).orElse (fun _ => (parseYMD a).orElse (fun _ => parseMDy2 a)) with
      | none => rw [hfmt] at h; cases h
      | some t =>
          rw [hfmt] at h
          rcases t with ⟨y, m, d⟩
          cases h

theorem rowToFill_error_class (r : Row) (e : PyErr) (h : rowToFill r = .error e) :
    (∃ m, e = .valueError m) ∨ e = .keyError ∨ e = .typeError ∨
      e = .overflowError ∨ e = .indexError := by
  unfold rowToFill at h
  cases h1 : rowIndex r "B/S" with
  | error e1 =>
      rw [h1] at h
      dsimp only at h
      injection h with h'
      subst h'
      exact Or.inr (Or.inl (rowIndex_error _ _ _ h1))
  | ok side0 =>
      rw [h1] at h
      dsimp only at h
      cases h2 : rowIndex r "filledQty" with
      | error e2 =>
          rw [h2] at h
          dsimp only at h
          injection h with h'
          subst h'
          exact Or.inr (Or.inl (rowIndex_error _ _ _ h2))
      | ok qty0 =>
          rw [h2] at h
          dsimp only at h
          cases h3 : parsePyFloat (pyStr qty0) with
          | none =>
              rw [h3] at h
              dsimp only at h
              injection h with h'
              exact Or.inl ⟨_, h'.symm⟩
          | some qtyF =>
              rw [h3] at h
              dsimp only at h
              cases h4 : pyIntOfFloat qtyF with
              | error e4 =>
                  rw [h4] at h
                  dsimp only at h
                  injection h with h'
                  subst h'
                  rcases pyIntOfFloat_error _ _ h4 with h' | ⟨m, h'⟩
                  · exact Or.inr (Or.inr (Or.inr (Or.inl h')))
                  · exact Or.inl ⟨m, h'⟩
              | ok qty =>
                  rw [h4] at h
                  dsimp only at h
                  cases h5 : rowIndex r "avgPrice" with
                  | error e5 =>
                      rw [h5] at h
                      dsimp only at h
                      injection h with h'
                      subst h'
                      exact Or.inr (Or.inl (rowIndex_error _ _ _ h5))
                  | ok price0 =>
                      rw [h5] at h
                      dsimp only at h
                      cases price0 with
                      | none =>
                          injection h with h'
                          exact Or.inr (Or.inr (Or.inl h'.symm))
                      | some s =>
                          dsimp only at h
                          cases h6 : parsePyFloat s with
                          | none =>
                              rw [h6] at h
                              dsimp only at h
                              injection h with h'
                              exact Or.inl ⟨_, h'.symm⟩
                          | some price =>
                              rw [h6] at h
                              dsimp only at h
                              cases h7 : rowIndex r "Fill Time" with
                              | error e7 =>
                                  rw [h7] at h
                                  dsimp only at h
                                  injection h with h'
                                  subst h'
                                  exact Or.inr (Or.inl (rowIndex_error _ _ _ h7))
                              | ok time0 =>
                                  rw [h7] at h
                                  dsimp only at h
                                  cases h8 : rowIndex r "Date" with
                                  | error e8 =>
                                      rw [h8] at h
                                      dsimp only at h
                                      injection h with h'
                                      subst h'
                                      exact Or.inr (Or.inl (rowIndex_error _ _ _ h8))
                                  | ok date0 =>
                                      rw [h8] at h
                                      dsimp only at h
                                      cases h9 : parseDateStr (pyStr date0) with
                                      | error e9 =>
                                          rw [h9] at h
                                          dsimp only at h
                                          injection h with h'
                                          subst h'
                                          exact Or.inr (Or.inr (Or.inr (Or.inr
                                            (parseDateStr_error _ _ h9))))
                                      | ok date =>
                                          rw [h9] at h
                                          dsimp only at h
                                          cases h

theorem processRow_error (r : Row) (e : PyErr) (h : processRow r = .error e) :
    e = .overflowError ∨ e = .indexError := by
  unfold processRow at h
  by_cases h0 : (!truthyStr (rowGetOpt r "Fill Time") || !truthyStr (rowGetOpt r "B/S")) = true
  · rw [if_pos h0] at h; cases h
  · rw [if_neg h0] at h
    cases hr : rowToFill r with
    | ok f => rw [hr] at h; cases h
    | error e' =>
        rw [hr] at h
        rcases rowToFill_error_class _ _ hr with ⟨m, rfl⟩ | rfl | rfl | rfl | rfl
        · cases h
        · cases h
        · cases h
        · injection h with h'; exact Or.inl h'.symm
        · injection h with h'; exact Or.inr h'.symm

theorem processRows_error (rs : List Row) (e : PyErr) (h : processRows rs = .error e) :
    e = .overflowError ∨ e = .indexError := by
  induction rs with
  | nil => cases h
  | cons r rest ih =>
      unfold processRows at h
      cases hr : processRow r with
      | error e' =>
          rw [hr, except_bind_error] at h
          injection h with h'
          subst h'
          exact processRow_error _ _ hr
      | ok f? =>
          rw [hr, except_bind_ok] at h
          cases hrest : processRows rest with
          | error e'' =>
              rw [hrest, except_bind_error] at h
              injection h with h'
              subst h'
              exact ih hrest
          | ok fs =>
              rw [hrest, except_bind_ok] at h
              cases f? with
              | some f => cases h
              | none => cases h


theorem parse_with_rows (filename : String) (file : UploadFile) (rs : List Row)
    (hr : rowsOf file (extOf filename) true = .ok rs) :
    (∀ e, parseUploadedFile true filename file = .error e →
      (∃ m, e = .valueError m) ∨ e = .overflowError ∨ e = .indexError) ∧
    ((∃ m, parseUploadedFile true filename file = .error (.valueError m)) ↔
      (rs = [] ∨ missingCols (rs.headD []) ≠ [] ∨ processRows rs = .ok [])) ∧
    (∀ fills, parseUploadedFile true filename file = .ok fills → fills ≠ []) := by
  have hparse : parseUploadedFile true filename file =
      (if rs.isEmpty then Except.error (.valueError "File is empty.")
       else if !(missingCols (rs.headD [])).isEmpty then
         Except.error (.valueError "Missing required columns")
       else (processRows rs >>= fun fills =>
         if fills.isEmpty then Except.error (.valueError "No valid fills found in file.")
         else Except.ok fills)) := by
    unfold parseUploadedFile
    rw [hr]
    rfl
  by_cases he : rs.isEmpty
  · rw [if_pos he] at hparse
    have hrs : rs = [] := List.isEmpty_iff.mp he
    refine ⟨?_, ?_, ?_⟩
    · intro e hEq
      rw [hparse] at hEq
      injection hEq with h'
      exact Or.inl ⟨_, h'.symm⟩
    · exact iff_of_true ⟨_, hparse⟩ (Or.inl hrs)
    · intro fills hEq
      rw [hparse] at hEq
      cases hEq
  · rw [if_neg he] at hparse
    have hne : rs ≠ [] := fun hh => he (by rw [hh]; rfl)
    by_cases hmc : (missingCols (rs.headD [])).isEmpty
    · have hmc' : (!(missingCols (rs.headD [])).isEmpty) = false := by rw [hmc]; rfl
      rw [hmc', if_neg (by simp)] at hparse
      have hmceq : missingCols (rs.headD []) = [] := List.isEmpty_iff.mp hmc
      cases hp : processRows rs with
      | error e' =>
          rw [hp, except_bind_error] at hparse
          rcases processRows_error _ _ hp with h' | h' <;> subst h'
          · refine ⟨?_, ?_, ?_⟩
            · intro e hEq
              rw [hparse] at hEq
              injection hEq with h''
              exact Or.inr (Or.inl h''.symm)
            · refine iff_of_false ?_ ?_
              · rintro ⟨m, hEq⟩
                rw [hparse] at hEq
                cases hEq
              · rintro (h'' | h'' | h'')
                · exact hne h''
                · exact h'' hmceq
                · exact Except.noConfusion h''
            · intro fills hEq
              rw [hparse] at hEq
              cases hEq
          · refine ⟨?_, ?_, ?_⟩
            · intro e hEq
              rw [hparse] at hEq
              injection hEq with h''
              exact Or.inr (Or.inr h''.symm)
            · refine iff_of_false ?_ ?_
              · rintro ⟨m, hEq⟩
                rw [hparse] at hEq
                cases hEq
              · rintro (h'' | h'' | h'')
                · exact hne h''
                · exact h'' hmceq
                · exact Except.noConfusion h''
            · intro fills hEq
              rw [hparse] at hEq
              cases hEq
      | ok fills =>
          rw [hp, except_bind_ok] at hparse
          by_cases hf : fills.isEmpty
          · rw [if_pos hf] at hparse
            have hfe : fills = [] := List.isEmpty_iff.mp hf
            refine ⟨?_, ?_, ?_⟩
            · intro e hEq
              rw [hparse] at hEq
              injection hEq with h''
              exact Or.inl ⟨_, h''.symm⟩
            · exact iff_of_true ⟨_, hparse⟩ (Or.inr (Or.inr (by rw [hfe])))
            · intro fills' hEq
              rw [hparse] at hEq
              cases hEq
          · rw [if_neg hf] at hparse
            have hfe : fills ≠ [] := fun hh => hf (by rw [hh]; rfl)
            refine ⟨?_, ?_, ?_⟩
            · intro e hEq
              rw [hparse] at hEq
              cases hEq
            · refine iff_of_false ?_ ?_
              · rintro ⟨m, hEq⟩
                rw [hparse] at hEq
                cases hEq
              · rintro (h'' | h'' | h'')
                · exact hne h''
                · exact h'' hmceq
                · injection h'' with h''
                  exact hfe h''
            · intro fills' hEq
              rw [hparse] at hEq
              injection hEq with h''
              rw [← h'']
              exact hfe
    · have hmc' : (!(missingCols (rs.headD [])).isEmpty) = true := by
        cases hmm : (missingCols (rs.headD [])).isEmpty
        · rfl
        · exact absurd hmm hmc
      rw [hmc', if_pos rfl] at hparse
      have hmcne : missingCols (rs.headD []) ≠ [] := fun hh => hmc (by rw [hh]; rfl)
      refine ⟨?_, ?_, ?_⟩
      · intro e hEq
        rw [hparse] at hEq
        injection hEq with h'
        exact Or.inl ⟨_, h'.symm⟩
      · exact iff_of_true ⟨_, hparse⟩ (Or.inr (Or.inl hmcne))
      · intro fills hEq
        rw [hparse] at hEq
        cases hEq

/-- C8 (amended): under an installed `openpyxl` and a loadable workbook, every
exception escaping `parse_uploaded_file` is a `ValueError`, an
`OverflowError` (infinite quantity) or an `IndexError` (blank date); a
`ValueError` is raised exactly when the extension is unsupported, the row set
is empty, a required column is missing, or zero valid fills remain; a
successful parse returns a nonempty fill list; and a row whose fill time is
unparsable is retained with the raw token as its time, not skipped. -/
theorem c8_parse_error_conditions (filename : String) (file : UploadFile)
    (hload : (extOf filename = "xlsx" ∨ extOf filename = "xls") →
      ∃ hrow trows, file.xlsxRows = some (hrow :: trows)) :
    (∀ e, parseUploadedFile true filename file = .error e →
      (∃ m, e = .valueError m) ∨ e = .overflowError ∨ e = .indexError) ∧
    ((∃ m, parseUploadedFile true filename file = .error (.valueError m)) ↔
      (¬(extOf filename = "csv" ∨ extOf filename = "xlsx" ∨ extOf filename = "xls") ∨
        ∃ rs, rowsOf file (extOf filename) true = .ok rs ∧
          (rs = [] ∨ missingCols (rs.headD []) ≠ [] ∨ processRows rs = .ok []))) ∧
    (∀ fills, parseUploadedFile true filename file = .ok fills → fills ≠ []) ∧
    (∃ f, processRow (csvDict csvHeader ["Buy", "100", "1", "zz", "2024-01-01"]) =
        .ok (some f) ∧ f.time = "zz") := by
  have hret : ∃ f, processRow (csvDict csvHeader ["Buy", "100", "1", "zz", "2024-01-01"]) =
      .ok (some f) ∧ f.time = "zz" := ⟨_, rfl, rfl⟩
  by_cases hsupp : extOf filename = "csv" ∨ extOf filename = "xlsx" ∨ extOf filename = "xls"
  · -- a supported extension: rowsOf yields a row list
    have hrows : ∃ rs, rowsOf file (extOf filename) true = .ok rs := by
      rcases hsupp with hc | hx
      · exact ⟨csvRowsList file, by unfold rowsOf; rw [if_pos hc]⟩
      · rcases hload hx with ⟨hrow, trows, hxl⟩
        refine ⟨trows.map (xlsxDict (hrow.map xlsxHeaderName)), ?_⟩
        unfold rowsOf
        have hnc : extOf filename ≠ "csv" := by
          rcases hx with hx | hx <;> rw [hx] <;> decide
        rw [if_neg hnc, if_pos hx, hxl]
        rfl
    rcases hrows with ⟨rs, hr⟩
    rcases parse_with_rows filename file rs hr with ⟨hA, hB, hC⟩
    refine ⟨hA, ?_, hC, hret⟩
    rw [hB]
    constructor
    · intro hcond
      exact Or.inr ⟨rs, hr, hcond⟩
    · rintro (hno | ⟨rs', hr', hcond⟩)
      · exact absurd hsupp hno
      · rw [hr] at hr'
        injection hr' with h'
        rw [h']
        exact hcond
  · -- unsupported extension: the dispatch raises a ValueError
    have hr : rowsOf file (extOf filename) true =
        .error (.valueError "Unsupported file type. Upload CSV or XLSX.") := by
      unfold rowsOf
      push_neg at hsupp
      rw [if_neg hsupp.1, if_neg (by tauto)]
    have hparse : parseUploadedFile true filename file =
        .error (.valueError "Unsupported file type. Upload CSV or XLSX.") := by
      unfold parseUploadedFile
      rw [hr]
      rfl
    refine ⟨?_, ?_, ?_, hret⟩
    · intro e hEq
      rw [hparse] at hEq
      injection hEq with h'
      exact Or.inl ⟨_, h'.symm⟩
    · exact iff_of_true ⟨_, hparse⟩ (Or.inl hsupp)
    · intro fills hEq
      rw [hparse] at hEq
      cases hEq

/-- C8 counterexample: a CSV row with a present fill time and side but a
blank `Date` value makes `_parse_date` index an empty token list, and the
resulting `IndexError` escapes `parse_uploaded_file` uncaught — the row is
neither skipped nor turned into a validation error. -/
theorem c8_blank_date_index_error :
    parseUploadedFile true "fills.csv" blankDateFile = .error .indexError ∧
    parseUploadedFile true "fills.csv" infQtyFile = .error .overflowError ∧
    (∃ f, parseUploadedFile true "fills.csv" badTimeFile = .ok [f] ∧ f.time = "zz") := by
  exact ⟨by decide, by decide, ⟨_, rfl, rfl⟩⟩

/-- C8 witness: the amended statement applied to an upload with an
unsupported extension. -/
theorem c8_parse_error_conditions_witness :
    ∃ m, parseUploadedFile true "fills.txt" emptyUpload = .error (.valueError m) :=
  (c8_parse_error_conditions "fills.txt" emptyUpload
    (fun h => by rcases h with h | h <;> exact absurd h (by decide))).2.1.mpr
    (Or.inl (by decide))

end TradeJournal
